import Mathlib

/-!
Verification of the resilient collection engine of the baixa-pdpj repository
(`src/api_client.py`, `src/s1_coleta_unificada.py`, `src/utils.py`,
`src/cache_manager.py`) against its natural-language specification.

The Python code is shallowly embedded: JSON dictionaries become structures
holding exactly the fields the code reads, network and filesystem effects
become explicit oracles / state records, and Python truthiness checks
(`if not content`, `if np_val`, `if data`) are translated as emptiness tests.
-/

namespace BaixaPdpj

/-! ## Data model: process items as returned by the search endpoint

A process item (`content` element of a search page) is read by the code
through the fields `numeroProcesso`, `sort` (cursor fallback) and
`tramitacoes` (with `classe[].codigo`, `partes[].polo`,
`partes[].documentosPrincipais[].numero`).  Absent JSON fields are modelled
as `none` / `[]`; Python treats `None` and empty collections alike
(falsy), which the embedding mirrors where the code tests truthiness. -/

structure Classe where
  codigo : Option Int
deriving Repr, DecidableEq

structure DocPrincipal where
  numero : String
deriving Repr, DecidableEq

structure Parte where
  polo : String
  documentosPrincipais : List DocPrincipal
deriving Repr, DecidableEq

structure Tramitacao where
  classe : List Classe
  partes : List Parte
deriving Repr, DecidableEq

structure Item where
  numeroProcesso : Option String
  sortKeys : List Int
  tramitacoes : List Tramitacao
deriving Repr, DecidableEq

/-- Python truthiness of `item.get("numeroProcesso")`: `None` and `""` are
both falsy (`if not np_val: continue` / `if np_val:`). -/
def numeroTruthy (item : Item) : Option String :=
  match item.numeroProcesso with
  | none => none
  | some np => if np = "" then none else some np

/-! ## utils.py: document normalization (`normalizar_documento`) -/

/-- `re.sub(r"\D", "", s)`: keep only the digit characters of `s`. -/
def digitsOnly (s : String) : String :=
  ⟨s.data.filter Char.isDigit⟩

/-- Python `str.zfill(w)` on a digits-only string: left-pad with `'0'`
up to width `w`. -/
def zfill (w : Nat) (s : String) : String :=
  ⟨List.replicate (w - s.data.length) '0' ++ s.data⟩

/-- Python `s[-n:]` on a nonempty string: keep the last `n` characters. -/
def lastChars (n : Nat) (s : String) : String :=
  ⟨s.data.drop (s.data.length - n)⟩

/-- `utils.normalizar_documento`: strip non-digits; empty → `""`;
at most 11 digits → zero-fill to 11 (CPF); otherwise keep at most the last
14 digits and zero-fill to 14 (CNPJ). -/
def normalizarDocumento (documentoStr : String) : String :=
  let docDigits := digitsOnly documentoStr
  if docDigits.data = [] then ""
  else if docDigits.data.length ≤ 11 then zfill 11 docDigits
  else
    let docDigits2 := if docDigits.data.length > 14 then lastChars 14 docDigits else docDigits
    zfill 14 docDigits2

/-! ## utils.py: classification and prioritization -/

/-- `utils.is_execucao_fiscal`: some tramitação has a classe with
código 1116. -/
def isExecucaoFiscal (item : Item) : Bool :=
  item.tramitacoes.any fun t => t.classe.any fun c => c.codigo == some 1116

/-- Python `str.upper()`, character by character. -/
def upperStr (s : String) : String :=
  ⟨s.data.map Char.toUpper⟩

/-- `utils.is_polo_ativo`: the normalized document appears among the
`documentosPrincipais` of a parte whose polo upper-cases to `"ATIVO"`. -/
def isPoloAtivo (item : Item) (docNormalizado : String) : Bool :=
  item.tramitacoes.any fun t => t.partes.any fun p =>
    upperStr p.polo == "ATIVO" &&
      p.documentosPrincipais.any fun dp => digitsOnly dp.numero == docNormalizado

/-- `utils._unique` with its accumulated `seen` set: keep the first
occurrence of each element, preserving order. -/
def uniqueAux : List String → List String → List String
  | [], _ => []
  | x :: xs, seen =>
    if x ∈ seen then uniqueAux xs seen else x :: uniqueAux xs (x :: seen)

/-- `utils._unique`: order-preserving duplicate removal. -/
def uniqueList (l : List String) : List String :=
  uniqueAux l []

/-- The classification loop of `utils.priorizar_processos`, before the final
dedup.  Items without a truthy `numeroProcesso` are skipped; an item goes to
`ef` when `is_execucao_fiscal`, else to `pa` when the document is truthy and
`is_polo_ativo`, else to `ou`; loop order is preserved. -/
def priorizarAux (doc : String) : List Item → List String × List String × List String
  | [] => ([], [], [])
  | item :: rest =>
    let (ef, pa, ou) := priorizarAux doc rest
    match numeroTruthy item with
    | none => (ef, pa, ou)
    | some np =>
      if isExecucaoFiscal item then (np :: ef, pa, ou)
      else if (doc != "") && isPoloAtivo item doc then (ef, np :: pa, ou)
      else (ef, pa, np :: ou)

/-- `utils.priorizar_processos`: classify then dedup each tier.
The Python `doc_normalizado=None` case is modelled as `doc = ""`
(both are falsy in the guard `doc_normalizado and is_polo_ativo(...)`). -/
def priorizarProcessos (listaConteudo : List Item) (docNormalizado : String) :
    List String × List String × List String :=
  let (ef, pa, ou) := priorizarAux docNormalizado listaConteudo
  (uniqueList ef, uniqueList pa, uniqueList ou)

/-! ## s1_coleta_unificada.py: `ColetaUnificada._aplicar_limites` -/

/-- `ColetaUnificada._aplicar_limites`: truncate each tier to
`max_processos_per_doc` when that cap is positive, concatenate the tiers in
order, then truncate to `max_processos_per_root` when that cap is
positive. -/
def aplicarLimites (limCat limRoot : Int) (ef pa ou : List String) : List String :=
  let efpau :=
    if 0 < limCat then (ef.take limCat.toNat, pa.take limCat.toNat, ou.take limCat.toNat)
    else (ef, pa, ou)
  let merged := efpau.1 ++ efpau.2.1 ++ efpau.2.2
  if 0 < limRoot then merged.take limRoot.toNat else merged

/-! ## api_client.py: token rotation (`PDPJClient._next_token`) -/

/-- `PDPJClient._next_token`: read `tokens[idx % len(tokens)]`, then
increment the shared index.  The constructor guarantees a nonempty pool. -/
def nextToken (tokens : List String) (tokenIdx : Nat) : String × Nat :=
  (tokens.getD (tokenIdx % tokens.length) "", tokenIdx + 1)

/-- `n` successive `_next_token` selections starting from index
`tokenIdx`. -/
def selectTokens (tokens : List String) : Nat → Nat → List String
  | _, 0 => []
  | idx, n + 1 =>
    (nextToken tokens idx).1 :: selectTokens tokens (nextToken tokens idx).2 n

/-! ## api_client.py: the resilient `PDPJClient.get`

One attempt is abstracted by an oracle from the attempt number to its
outcome: either an HTTP response (status plus the parsed `Retry-After`
value, which the code defaults to 30 when the header is missing) or a
connection/timeout failure.  Sleeps are recorded (in seconds, as rationals)
rather than performed; `random.uniform(0, 1)` is a jitter oracle. -/

inductive AttemptOutcome where
  | response (status : Nat) (retryAfter : Nat)
  | connFailure
deriving Repr, DecidableEq

structure GetStats where
  requests : Nat := 0
  retries : Nat := 0
  errors429 : Nat := 0
  errorsOther : Nat := 0
  sleeps : List ℚ := []
deriving Repr, DecidableEq

/-- The `for attempt in range(self.max_retries)` loop of `PDPJClient.get`,
with `fuel` remaining attempts.  Returns the status of the returned
response, or `none` when all attempts are exhausted (the Python code then
raises `ConnectionError`). -/
def getAttempts (base : ℚ) (jitter : Nat → ℚ) (oracle : Nat → AttemptOutcome) :
    Nat → Nat → GetStats → Option Nat × GetStats
  | 0, _, st => (none, st)
  | fuel + 1, attempt, st =>
    let st1 : GetStats := { st with requests := st.requests + 1 }
    match oracle attempt with
    | .connFailure =>
      getAttempts base jitter oracle fuel (attempt + 1)
        { st1 with errorsOther := st1.errorsOther + 1, retries := st1.retries + 1,
                   sleeps := st1.sleeps ++ [base * 2 ^ attempt + jitter attempt] }
    | .response status retryAfter =>
      if status = 429 then
        getAttempts base jitter oracle fuel (attempt + 1)
          { st1 with errors429 := st1.errors429 + 1,
                     sleeps := st1.sleeps ++ [max (retryAfter : ℚ) ((10 * (attempt + 1) : Nat) : ℚ)] }
      else if status = 500 ∨ status = 502 ∨ status = 503 ∨ status = 504 then
        getAttempts base jitter oracle fuel (attempt + 1)
          { st1 with retries := st1.retries + 1,
                     sleeps := st1.sleeps ++ [base * 2 ^ attempt + jitter attempt] }
      else (some status, st1)

/-- `PDPJClient.get`: run the attempt loop from attempt 0 with
`max_retries` attempts available. -/
def pdpjGet (base : ℚ) (jitter : Nat → ℚ) (oracle : Nat → AttemptOutcome)
    (maxRetries : Nat) (st : GetStats) : Option Nat × GetStats :=
  getAttempts base jitter oracle maxRetries 0 st

/-! ## api_client.py: `PDPJClient.buscar_detalhe_processo` and the detail
worker (`ColetaUnificada._worker`)

A detail document is a JSON dictionary; only its emptiness is observed
(`if data:`), so it is modelled as an association list.  The disk cache at
`save_path` is an `Option Detail` (`some` = file exists and loads);
the fetch is abstracted as an HTTP response or a raised exception
(`PDPJClient.get` raising after exhausting retries, or any other error
inside the `try`, all of which the function catches). -/

structure Detail where
  fields : List (String × String)
deriving Repr, DecidableEq

/-- Python truthiness of the returned dict (`if data:`). -/
def Detail.isEmptyDict (d : Detail) : Bool := d.fields.isEmpty

inductive FetchOutcome where
  | response (status : Nat) (data : Detail)
  | raisedError
deriving Repr, DecidableEq

/-- `PDPJClient.buscar_detalhe_processo`: return the saved file if loadable;
else `{}` on 404, on any other non-200 status, or on an exception; on 200
return the body (and write it — the `Bool` records whether the detail file
was persisted). -/
def buscarDetalheProcesso (savedFile : Option Detail) (outcome : FetchOutcome) :
    Detail × Bool :=
  match savedFile with
  | some d => (d, false)
  | none =>
    match outcome with
    | .raisedError => (⟨[]⟩, false)
    | .response status data =>
      if status = 404 then (⟨[]⟩, false)
      else if status ≠ 200 then (⟨[]⟩, false)
      else (data, true)

/-! ### cache_manager.py: the two caches the worker touches -/

structure CacheState where
  processos404 : List String
  cacheProcessos : List (String × String)
deriving Repr, DecidableEq

/-- `CacheManager.add_processo_404`: `set.add` on the not-found set. -/
def addProcesso404 (c : CacheState) (proc : String) : CacheState :=
  if proc ∈ c.processos404 then c
  else { c with processos404 := c.processos404 ++ [proc] }

/-- Dictionary assignment `d[k] = v`: update in place or append. -/
def assocSet : List (String × String) → String → String → List (String × String)
  | [], k, v => [(k, v)]
  | (k', v') :: rest, k, v =>
    if k' = k then (k, v) :: rest else (k', v') :: assocSet rest k v

/-- `CacheManager.add_processo`: `cache_processos[proc] = status`. -/
def addProcesso (c : CacheState) (proc status : String) : CacheState :=
  { c with cacheProcessos := assocSet c.cacheProcessos proc status }

structure WorkerStats where
  detalhesBaixados : Nat := 0
  detalhes404 : Nat := 0
  erros : Nat := 0
deriving Repr, DecidableEq

/-- The body of `ColetaUnificada._worker` for one dequeued
`(numero, save_path, doc)` item: fetch the detail; a truthy dict marks the
process `"ok"` in the processed cache, a falsy one adds it to the not-found
(404) cache.  The worker's own `except` branch is unreachable in this
model, since `buscar_detalhe_processo` catches every exception and the
cache/stats operations do not raise. -/
def workerStep (cache : CacheState) (stats : WorkerStats) (npVal : String)
    (savedFile : Option Detail) (outcome : FetchOutcome) : CacheState × WorkerStats :=
  let data := (buscarDetalheProcesso savedFile outcome).1
  if data.isEmptyDict then
    (addProcesso404 cache npVal, { stats with detalhes404 := stats.detalhes404 + 1 })
  else
    (addProcesso cache npVal "ok", { stats with detalhesBaixados := stats.detalhesBaixados + 1 })

/-! ## s1_coleta_unificada.py: the discovered-process pool

`_busca_doc`, `_busca_filiais` and `_busca_nome` all merge items with
`pool.setdefault(np, {"item": it, "origens": set()})` followed by
`pool[np]["origens"].add(tag)`.  The insertion-ordered Python dict is an
association list; the origin set is an insert-if-absent list. -/

structure PoolEntry where
  item : Item
  origens : List String
deriving Repr, DecidableEq

def lookupPool : List (String × PoolEntry) → String → Option PoolEntry
  | [], _ => none
  | (k, e) :: rest, np => if k = np then some e else lookupPool rest np

/-- `set.add tag` on an entry's origin set, at the given key. -/
def addTagPool : List (String × PoolEntry) → String → String → List (String × PoolEntry)
  | [], _, _ => []
  | (k, e) :: rest, np, tag =>
    if k = np then
      (k, { e with origens := if tag ∈ e.origens then e.origens else e.origens ++ [tag] }) :: rest
    else (k, e) :: addTagPool rest np tag

/-- One `if np_val: pool.setdefault(...); pool[np]["origens"].add(tag)`
step of the search loops. -/
def poolAdd (pool : List (String × PoolEntry)) (it : Item) (tag : String) :
    List (String × PoolEntry) :=
  match numeroTruthy it with
  | none => pool
  | some np =>
    match lookupPool pool np with
    | some _ => addTagPool pool np tag
    | none => pool ++ [(np, ⟨it, [tag]⟩)]

def poolKeys (pool : List (String × PoolEntry)) : List String :=
  pool.map Prod.fst

/-- The pool built by a sequence of discoveries (item, strategy tag),
starting from the empty pool of `_processar_individuo`. -/
def mkPool (adds : List (Item × String)) : List (String × PoolEntry) :=
  adds.foldl (fun p a => poolAdd p a.1 a.2) []

/-! ## api_client.py: the checkpointed pager (`buscar_por_documento`)

The network is an oracle from the running request count to the response of
`PDPJClient.get`; the checkpoint directory is a map from page index to the
stored page.  `_save_page` / `_load_page` success is modelled as the map
update / lookup; `writes` logs every `_save_page` call. -/

structure Page where
  totalRegistros : Nat
  content : List Item
  searchAfter : List Int
deriving Repr, DecidableEq

structure PageResp where
  status : Nat
  data : Page
deriving Repr, DecidableEq

structure PagerSt where
  disk : Nat → Option Page
  reqCount : Nat
  writes : List (Nat × Page)
  pagesOk : Nat

/-- `PDPJClient._extract_search_after`: prefer a truthy `searchAfter`
field, else the truthy `sort` of the last content item, else `none`. -/
def extractSearchAfter (data : Page) : Option (List Int) :=
  if data.searchAfter ≠ [] then some data.searchAfter
  else
    match data.content.getLast? with
    | some lastItem => if lastItem.sortKeys ≠ [] then some lastItem.sortKeys else none
    | none => none

/-- The per-page acquisition step of `buscar_por_documento`: return the
checkpointed page if `_load_page` finds one; otherwise issue one client
call; a non-200 status yields `none` (the caller breaks), a 200 body is
checkpointed via `_save_page` (when a save dir was given) and returned. -/
def getPageData (saveDir : Bool) (net : Nat → PageResp) (st : PagerSt) (pagina : Nat) :
    PagerSt × Option Page :=
  match st.disk pagina with
  | some data => (st, some data)
  | none =>
    let resp := net st.reqCount
    let st1 := { st with reqCount := st.reqCount + 1 }
    if resp.status = 200 then
      let st2 :=
        if saveDir then
          { st1 with disk := fun p => if p = pagina then some resp.data else st1.disk p,
                     writes := st1.writes ++ [(pagina, resp.data)] }
        else st1
      (st2, some resp.data)
    else (st1, none)

structure PagerResult where
  processos : List Item
  totalApi : Option Nat
  gigante : Bool
  paginas : Nat
  st : PagerSt

/-- The control decision taken on a page body by the tail of the loop body
of `buscar_por_documento`: empty content breaks keeping the old
accumulator; otherwise the content is appended and the page counted, after
which the item cap or a missing cursor breaks; else the loop continues. -/
inductive PageStep where
  | stopEmpty
  | stopFull (acc1 : List Item)
  | next (acc1 : List Item)
deriving Repr, DecidableEq

def pageStep (maxProc : Nat) (acc : List Item) (data : Page) : PageStep :=
  if data.content = [] then .stopEmpty
  else
    let acc1 := acc ++ data.content
    if maxProc ≤ acc1.length then .stopFull acc1
    else
      match extractSearchAfter data with
      | none => .stopFull acc1
      | some _ => .next acc1

/-- The `while pagina <= max_paginas` loop of `buscar_por_documento`, with
`fuel = max_paginas - pagina + 1` iterations still allowed.  Mirrors the
source order: load-or-fetch (break on non-200), first-page total / gigante
flag, then the `pageStep` decision (break on empty content; accumulate and
count the page; break on the item cap or a missing cursor; else advance). -/
def pagerLoop (saveDir : Bool) (net : Nat → PageResp) (maxProc : Nat) :
    Nat → Nat → List Item → Option Nat → Bool → PagerSt → PagerResult
  | 0, pagina, acc, ta, gig, st => ⟨acc, ta, gig, pagina, st⟩
  | fuel + 1, pagina, acc, ta, gig, st =>
    match getPageData saveDir net st pagina with
    | (st1, none) => ⟨acc, ta, gig, pagina, st1⟩
    | (st1, some data) =>
      let ta1 := some (ta.getD data.totalRegistros)
      let gig1 := gig || (ta.isNone && decide (data.totalRegistros > 5000))
      match pageStep maxProc acc data with
      | .stopEmpty => ⟨acc, ta1, gig1, pagina, st1⟩
      | .stopFull acc1 => ⟨acc1, ta1, gig1, pagina, { st1 with pagesOk := st1.pagesOk + 1 }⟩
      | .next acc1 =>
        pagerLoop saveDir net maxProc fuel (pagina + 1) acc1 ta1 gig1
          { st1 with pagesOk := st1.pagesOk + 1 }

/-- `PDPJClient.buscar_por_documento`: drive the loop from page 1 on the
given starting state (the query parameters are absorbed into the network
oracle). -/
def buscarPorDocumento (saveDir : Bool) (net : Nat → PageResp)
    (maxPaginas maxProc : Nat) (st : PagerSt) : PagerResult :=
  pagerLoop saveDir net maxProc maxPaginas 1 [] none false st

/-- The `total_api or len(all_items)` field of the returned dict
(`0` and `None` are both falsy). -/
def totalApiOut (r : PagerResult) : Nat :=
  match r.totalApi with
  | none => r.processos.length
  | some t => if t = 0 then r.processos.length else t

/-- A fresh pager state over a given checkpoint directory. -/
def initPagerSt (disk : Nat → Option Page) : PagerSt :=
  ⟨disk, 0, [], 0⟩

/-- The empty checkpoint directory. -/
def emptyDisk : Nat → Option Page := fun _ => none

/-! ## Spec-side tier selectors (for the Priority Selector refinement)

These follow §4.4 of the specification: precedence (1) high-priority
classification code, (2) identifier on the claimant side when tier 1 did
not match, (3) everything else; an item is selected only through its
process number. -/

def specTier1 (item : Item) : Option String :=
  match numeroTruthy item with
  | none => none
  | some np => if isExecucaoFiscal item then some np else none

def specTier2 (doc : String) (item : Item) : Option String :=
  match numeroTruthy item with
  | none => none
  | some np =>
    if !isExecucaoFiscal item && ((doc != "") && isPoloAtivo item doc) then some np else none

def specTier3 (doc : String) (item : Item) : Option String :=
  match numeroTruthy item with
  | none => none
  | some np =>
    if !isExecucaoFiscal item && !((doc != "") && isPoloAtivo item doc) then some np else none

/-! # Theorems -/

/-! ## C10: document normalization -/

/-- C10: for every input string, `normalizar_documento` returns either the
empty string (no digit in the input), or a digits-only string zero-padded
on the left to length exactly 11 (at most 11 digits), or of length exactly
14 built from the last 14 digits (12 or more digits); never any other
length. -/
theorem C10_normalizar_documento (s : String) :
    ((digitsOnly s).data = [] → normalizarDocumento s = "") ∧
    ((digitsOnly s).data ≠ [] → (digitsOnly s).data.length ≤ 11 →
      (normalizarDocumento s).data
          = List.replicate (11 - (digitsOnly s).data.length) '0' ++ (digitsOnly s).data ∧
        (normalizarDocumento s).data.length = 11) ∧
    (12 ≤ (digitsOnly s).data.length →
      (normalizarDocumento s).data
          = List.replicate (14 - (digitsOnly s).data.length) '0'
              ++ (digitsOnly s).data.drop ((digitsOnly s).data.length - 14) ∧
        (normalizarDocumento s).data.length = 14) ∧
    ((normalizarDocumento s).data.length = 0 ∨ (normalizarDocumento s).data.length = 11 ∨
      (normalizarDocumento s).data.length = 14) := by
  have core : (normalizarDocumento s).data =
      if (digitsOnly s).data = [] then []
      else if (digitsOnly s).data.length ≤ 11 then (zfill 11 (digitsOnly s)).data
      else if (digitsOnly s).data.length > 14 then (zfill 14 (lastChars 14 (digitsOnly s))).data
      else (zfill 14 (digitsOnly s)).data := by
    simp only [normalizarDocumento]
    split_ifs <;> rfl
  have key11 : (digitsOnly s).data ≠ [] → (digitsOnly s).data.length ≤ 11 →
      (normalizarDocumento s).data
          = List.replicate (11 - (digitsOnly s).data.length) '0' ++ (digitsOnly s).data ∧
        (normalizarDocumento s).data.length = 11 := by
    intro h h11
    rw [core, if_neg h, if_pos h11]
    refine ⟨rfl, ?_⟩
    show (List.replicate (11 - (digitsOnly s).data.length) '0' ++ (digitsOnly s).data).length = 11
    rw [List.length_append, List.length_replicate]
    omega
  have key14 : 12 ≤ (digitsOnly s).data.length →
      (normalizarDocumento s).data
          = List.replicate (14 - (digitsOnly s).data.length) '0'
              ++ (digitsOnly s).data.drop ((digitsOnly s).data.length - 14) ∧
        (normalizarDocumento s).data.length = 14 := by
    intro h12
    have hne : (digitsOnly s).data ≠ [] := by
      intro hnil
      rw [hnil] at h12
      simp at h12
    have hgt : ¬ (digitsOnly s).data.length ≤ 11 := by omega
    by_cases h14 : (digitsOnly s).data.length > 14
    · rw [core, if_neg hne, if_neg hgt, if_pos h14]
      have hdrop : (lastChars 14 (digitsOnly s)).data.length = 14 := by
        show ((digitsOnly s).data.drop ((digitsOnly s).data.length - 14)).length = 14
        rw [List.length_drop]
        omega
      have hz : (zfill 14 (lastChars 14 (digitsOnly s))).data
          = (digitsOnly s).data.drop ((digitsOnly s).data.length - 14) := by
        show List.replicate (14 - (lastChars 14 (digitsOnly s)).data.length) '0'
            ++ (lastChars 14 (digitsOnly s)).data
          = (digitsOnly s).data.drop ((digitsOnly s).data.length - 14)
        rw [hdrop]
        simp [lastChars]
      rw [hz]
      have h0 : 14 - (digitsOnly s).data.length = 0 := by omega
      refine ⟨by rw [h0]; simp, ?_⟩
      rw [List.length_drop]
      omega
    · rw [core, if_neg hne, if_neg hgt, if_neg h14]
      have h0 : (digitsOnly s).data.length - 14 = 0 := by omega
      constructor
      · show List.replicate (14 - (digitsOnly s).data.length) '0' ++ (digitsOnly s).data
            = List.replicate (14 - (digitsOnly s).data.length) '0'
              ++ (digitsOnly s).data.drop ((digitsOnly s).data.length - 14)
        rw [h0]
        simp
      · show (List.replicate (14 - (digitsOnly s).data.length) '0' ++ (digitsOnly s).data).length = 14
        rw [List.length_append, List.length_replicate]
        omega
  refine ⟨fun h => ?_, key11, key14, ?_⟩
  · have hdata : (normalizarDocumento s).data = [] := by rw [core, if_pos h]
    cases hnd : normalizarDocumento s with
    | mk l =>
      rw [hnd] at hdata
      simp only at hdata
      subst hdata
      rfl
  · by_cases h0 : (digitsOnly s).data = []
    · left
      rw [core, if_pos h0]
      rfl
    · by_cases h11 : (digitsOnly s).data.length ≤ 11
      · exact Or.inr (Or.inl (key11 h0 h11).2)
      · exact Or.inr (Or.inr (key14 (by omega)).2)

/-- Witness for C10 at concrete inputs: no digits, 3 digits, 16 digits. -/
theorem C10_witness :
    normalizarDocumento "abc" = "" ∧
    (normalizarDocumento "12.3").data.length = 11 ∧
    (normalizarDocumento "12.345.678/0001-95x9").data.length = 14 :=
  ⟨(C10_normalizar_documento "abc").1 (by decide),
   ((C10_normalizar_documento "12.3").2.1 (by decide) (by decide)).2,
   ((C10_normalizar_documento "12.345.678/0001-95x9").2.2.1 (by decide)).2⟩

/-! ## C8: round-robin token rotation -/

lemma selectTokens_getD (tokens : List String) :
    ∀ (n idx i : Nat), i < n →
      (selectTokens tokens idx n).getD i "" = tokens.getD ((idx + i) % tokens.length) "" := by
  intro n
  induction n with
  | zero => intro idx i h; omega
  | succ m ih =>
    intro idx i h
    cases i with
    | zero => simp [selectTokens, nextToken]
    | succ j =>
      have hj : j < m := by omega
      show (selectTokens tokens (idx + 1) m).getD j "" = _
      rw [ih (idx + 1) j hj]
      congr 2
      omega

lemma mod_succ_ne_of_lt (K i : Nat) (hK : 1 < K) : i % K ≠ (i + 1) % K := by
  have hmod : (i + 1) % K = (i % K + 1 % K) % K := Nat.add_mod i 1 K
  have h1 : 1 % K = 1 := Nat.mod_eq_of_lt hK
  have ha : i % K < K := Nat.mod_lt _ (by omega)
  by_cases h2 : i % K + 1 < K
  · rw [hmod, h1, Nat.mod_eq_of_lt h2]
    omega
  · have heq : i % K + 1 = K := by omega
    rw [hmod, h1, heq, Nat.mod_self]
    omega

/-- C8: for every `N ≥ 1` selections over a token pool of size `K`, the
`i`-th selection uses token index `i mod K` (round-robin); consecutive
selections use distinct indices whenever `K > 1`, hence (for a pool of
pairwise distinct tokens) never the same token twice in a row unless
`K = 1`. -/
theorem C8_token_rotation (tokens : List String) (N i : Nat)
    (hne : tokens ≠ []) (hi : i < N) :
    ((selectTokens tokens 0 N).getD i "" = tokens.getD (i % tokens.length) "") ∧
    (1 < tokens.length → i % tokens.length ≠ (i + 1) % tokens.length) ∧
    (1 < tokens.length → tokens.Nodup → i + 1 < N →
      (selectTokens tokens 0 N).getD i "" ≠ (selectTokens tokens 0 N).getD (i + 1) "") := by
  have hlen : 0 < tokens.length := List.length_pos.mpr hne
  refine ⟨?_, fun hK => mod_succ_ne_of_lt _ _ hK, fun hK hnd hi1 => ?_⟩
  · rw [selectTokens_getD tokens N 0 i hi, Nat.zero_add]
  · rw [selectTokens_getD tokens N 0 i (by omega), selectTokens_getD tokens N 0 (i + 1) hi1,
      Nat.zero_add, Nat.zero_add]
    have ha : i % tokens.length < tokens.length := Nat.mod_lt _ (by omega)
    have hb : (i + 1) % tokens.length < tokens.length := Nat.mod_lt _ (by omega)
    rw [List.getD_eq_getElem tokens "" ha, List.getD_eq_getElem tokens "" hb]
    intro hcontra
    exact mod_succ_ne_of_lt tokens.length i hK
      ((List.Nodup.getElem_inj_iff hnd).mp hcontra)

/-- Witness for C8 at `tokens = ["a","b","c"]`, `N = 5`, `i = 1`. -/
theorem C8_witness :
    (selectTokens ["a", "b", "c"] 0 5).getD 1 "" = "b" ∧
    (selectTokens ["a", "b", "c"] 0 5).getD 1 "" ≠ (selectTokens ["a", "b", "c"] 0 5).getD 2 "" := by
  have h := C8_token_rotation ["a", "b", "c"] 5 1 (by decide) (by decide)
  exact ⟨by rw [h.1]; rfl, h.2.2 (by decide) (by decide) (by decide)⟩

/-! ## C9: cap application in `_aplicar_limites` -/

lemma aplicarLimites_skip_skip (limCat limRoot : Int) (ef pa ou : List String)
    (hc : limCat ≤ 0) (hr : limRoot ≤ 0) :
    aplicarLimites limCat limRoot ef pa ou = ef ++ pa ++ ou := by
  simp only [aplicarLimites, if_neg (by omega : ¬ 0 < limCat), if_neg (by omega : ¬ 0 < limRoot)]

lemma aplicarLimites_skip_root (limCat limRoot : Int) (ef pa ou : List String)
    (hc : limCat ≤ 0) (hr : 0 < limRoot) :
    aplicarLimites limCat limRoot ef pa ou = (ef ++ pa ++ ou).take limRoot.toNat := by
  simp only [aplicarLimites, if_neg (by omega : ¬ 0 < limCat), if_pos hr]

lemma aplicarLimites_cat_skip (limCat limRoot : Int) (ef pa ou : List String)
    (hc : 0 < limCat) (hr : limRoot ≤ 0) :
    aplicarLimites limCat limRoot ef pa ou
      = ef.take limCat.toNat ++ pa.take limCat.toNat ++ ou.take limCat.toNat := by
  simp only [aplicarLimites, if_pos hc, if_neg (by omega : ¬ 0 < limRoot)]

lemma aplicarLimites_cat_root (limCat limRoot : Int) (ef pa ou : List String)
    (hc : 0 < limCat) (hr : 0 < limRoot) :
    aplicarLimites limCat limRoot ef pa ou
      = (ef.take limCat.toNat ++ pa.take limCat.toNat ++ ou.take limCat.toNat).take limRoot.toNat := by
  simp only [aplicarLimites, if_pos hc, if_pos hr]

/-- C9: in `_aplicar_limites` a zero-or-negative per-tier or per-entity cap
is skipped (no truncation at that stage), and a positive cap keeps exactly
the first `cap` elements of each tier, concatenated in tier order, then
truncated to the per-entity cap. -/
theorem C9_cap_semantics (ef pa ou : List String) (limCat limRoot : Int) :
    (limCat ≤ 0 → limRoot ≤ 0 → aplicarLimites limCat limRoot ef pa ou = ef ++ pa ++ ou) ∧
    (limCat ≤ 0 → 0 < limRoot →
      aplicarLimites limCat limRoot ef pa ou = (ef ++ pa ++ ou).take limRoot.toNat) ∧
    (0 < limCat → limRoot ≤ 0 →
      aplicarLimites limCat limRoot ef pa ou
        = ef.take limCat.toNat ++ pa.take limCat.toNat ++ ou.take limCat.toNat) ∧
    (0 < limCat → 0 < limRoot →
      aplicarLimites limCat limRoot ef pa ou
        = (ef.take limCat.toNat ++ pa.take limCat.toNat ++ ou.take limCat.toNat).take limRoot.toNat) :=
  ⟨fun hc hr => aplicarLimites_skip_skip _ _ _ _ _ hc hr,
   fun hc hr => aplicarLimites_skip_root _ _ _ _ _ hc hr,
   fun hc hr => aplicarLimites_cat_skip _ _ _ _ _ hc hr,
   fun hc hr => aplicarLimites_cat_root _ _ _ _ _ hc hr⟩

/-- Witness for C9 at concrete lists and caps `0` / `1`. -/
theorem C9_witness :
    aplicarLimites 0 0 ["a", "b"] ["c"] ["d"] = ["a", "b"] ++ ["c"] ++ ["d"] ∧
    aplicarLimites 1 1 ["a", "b"] ["c"] ["d"]
      = ((["a", "b"].take 1 ++ ["c"].take 1 ++ ["d"].take 1).take 1) := by
  have h1 := (C9_cap_semantics ["a", "b"] ["c"] ["d"] 0 0).1 (by decide) (by decide)
  have h2 := (C9_cap_semantics ["a", "b"] ["c"] ["d"] 1 1).2.2.2 (by decide) (by decide)
  exact ⟨h1, by rw [h2]; rfl⟩

/-! ## C7: priority selection pipeline -/

lemma uniqueAux_sublist : ∀ (l seen : List String), (uniqueAux l seen).Sublist l := by
  intro l
  induction l with
  | nil => intro seen; simp [uniqueAux]
  | cons x xs ih =>
    intro seen
    by_cases h : x ∈ seen
    · simp only [uniqueAux, if_pos h]
      exact (ih seen).cons x
    · simp only [uniqueAux, if_neg h]
      exact (ih (x :: seen)).cons₂ x

lemma mem_uniqueAux : ∀ (l seen : List String) (x : String),
    x ∈ uniqueAux l seen ↔ x ∈ l ∧ x ∉ seen := by
  intro l
  induction l with
  | nil => intro seen x; simp [uniqueAux]
  | cons y ys ih =>
    intro seen x
    by_cases h : y ∈ seen
    · simp only [uniqueAux, if_pos h, ih, List.mem_cons]
      constructor
      · rintro ⟨hm, hn⟩
        exact ⟨Or.inr hm, hn⟩
      · rintro ⟨hm | hm, hn⟩
        · exact absurd (hm ▸ h) hn
        · exact ⟨hm, hn⟩
    · simp only [uniqueAux, if_neg h, List.mem_cons, ih, List.mem_cons]
      constructor
      · rintro (hx | ⟨hm, hn⟩)
        · exact ⟨Or.inl hx, hx ▸ h⟩
        · exact ⟨Or.inr hm, fun hc => hn (Or.inr hc)⟩
      · rintro ⟨hx | hm, hn⟩
        · exact Or.inl hx
        · by_cases hxy : x = y
          · exact Or.inl hxy
          · exact Or.inr ⟨hm, fun hc => (by
              cases hc with
              | inl h1 => exact hxy h1
              | inr h2 => exact hn h2)⟩

lemma uniqueAux_nodup : ∀ (l seen : List String), (uniqueAux l seen).Nodup := by
  intro l
  induction l with
  | nil => intro seen; simp [uniqueAux]
  | cons x xs ih =>
    intro seen
    by_cases h : x ∈ seen
    · simp only [uniqueAux, if_pos h]
      exact ih seen
    · simp only [uniqueAux, if_neg h]
      refine List.Nodup.cons ?_ (ih (x :: seen))
      intro hmem
      exact ((mem_uniqueAux xs (x :: seen) x).mp hmem).2 (List.mem_cons_self x seen)

/-- The classification loop equals the three spec-side tier selectors,
applied in discovery order. -/
lemma priorizarAux_eq_filterMap (doc : String) : ∀ (items : List Item),
    priorizarAux doc items
      = (items.filterMap specTier1, items.filterMap (specTier2 doc),
         items.filterMap (specTier3 doc)) := by
  intro items
  induction items with
  | nil => rfl
  | cons item rest ih =>
    simp only [priorizarAux, ih, List.filterMap_cons]
    cases hnp : numeroTruthy item with
    | none => simp [specTier1, specTier2, specTier3, hnp]
    | some np =>
      cases hef : isExecucaoFiscal item with
      | true => simp [specTier1, specTier2, specTier3, hnp, hef]
      | false =>
        cases hpa : (doc != "") && isPoloAtivo item doc with
        | true => simp [specTier1, specTier2, specTier3, hnp, hef, hpa]
        | false => simp [specTier1, specTier2, specTier3, hnp, hef, hpa]

/-- C7: the pooled items are classified into exactly one of three tiers
with precedence (1) high-priority classification code 1116,
(2) identifier on the claimant (ATIVO) side when tier 1 did not match,
(3) everything else; each tier keeps discovery order with duplicates
removed, a positive per-tier cap truncates each tier independently, and the
per-entity cap truncates the tier-ordered concatenation. -/
theorem C7_priority_selection (items : List Item) (doc : String) (limCat limRoot : Int)
    (hc : 0 < limCat) (hr : 0 < limRoot) :
    (∀ item np, numeroTruthy item = some np →
      (specTier1 item = some np ∧ specTier2 doc item = none ∧ specTier3 doc item = none) ∨
      (specTier1 item = none ∧ specTier2 doc item = some np ∧ specTier3 doc item = none) ∨
      (specTier1 item = none ∧ specTier2 doc item = none ∧ specTier3 doc item = some np)) ∧
    (priorizarProcessos items doc
      = (uniqueList (items.filterMap specTier1),
         uniqueList (items.filterMap (specTier2 doc)),
         uniqueList (items.filterMap (specTier3 doc)))) ∧
    (∀ l : List String, (uniqueList l).Sublist l ∧ (uniqueList l).Nodup ∧
      (∀ x, x ∈ uniqueList l ↔ x ∈ l)) ∧
    (aplicarLimites limCat limRoot (priorizarProcessos items doc).1
        (priorizarProcessos items doc).2.1 (priorizarProcessos items doc).2.2
      = ((uniqueList (items.filterMap specTier1)).take limCat.toNat
          ++ (uniqueList (items.filterMap (specTier2 doc))).take limCat.toNat
          ++ (uniqueList (items.filterMap (specTier3 doc))).take limCat.toNat).take limRoot.toNat) := by
  have hprio : priorizarProcessos items doc
      = (uniqueList (items.filterMap specTier1),
         uniqueList (items.filterMap (specTier2 doc)),
         uniqueList (items.filterMap (specTier3 doc))) := by
    simp only [priorizarProcessos, priorizarAux_eq_filterMap doc items]
  refine ⟨?_, hprio, ?_, ?_⟩
  · intro item np hnp
    cases hef : isExecucaoFiscal item with
    | true =>
      left
      simp [specTier1, specTier2, specTier3, hnp, hef]
    | false =>
      cases hpa : (doc != "") && isPoloAtivo item doc with
      | true =>
        right; left
        simp [specTier1, specTier2, specTier3, hnp, hef, hpa]
      | false =>
        right; right
        simp [specTier1, specTier2, specTier3, hnp, hef, hpa]
  · intro l
    exact ⟨uniqueAux_sublist l [], uniqueAux_nodup l [],
      fun x => by simpa using mem_uniqueAux l [] x⟩
  · rw [hprio]
    exact aplicarLimites_cat_root _ _ _ _ _ hc hr

/-- Witness for C7 at a concrete pool: one tier-1 item (classe 1116), one
tier-2 item (doc on the ATIVO side), one other, with a duplicate, caps
2/3. -/
theorem C7_witness :
    aplicarLimites 2 3
        (priorizarProcessos
          [⟨some "p1", [], [⟨[⟨some 1116⟩], []⟩]⟩,
           ⟨some "p2", [], [⟨[], [⟨"ATIVO", [⟨"11122233344"⟩]⟩]⟩]⟩,
           ⟨some "p3", [], []⟩,
           ⟨some "p1", [], [⟨[⟨some 1116⟩], []⟩]⟩] "11122233344").1
        (priorizarProcessos
          [⟨some "p1", [], [⟨[⟨some 1116⟩], []⟩]⟩,
           ⟨some "p2", [], [⟨[], [⟨"ATIVO", [⟨"11122233344"⟩]⟩]⟩]⟩,
           ⟨some "p3", [], []⟩,
           ⟨some "p1", [], [⟨[⟨some 1116⟩], []⟩]⟩] "11122233344").2.1
        (priorizarProcessos
          [⟨some "p1", [], [⟨[⟨some 1116⟩], []⟩]⟩,
           ⟨some "p2", [], [⟨[], [⟨"ATIVO", [⟨"11122233344"⟩]⟩]⟩]⟩,
           ⟨some "p3", [], []⟩,
           ⟨some "p1", [], [⟨[⟨some 1116⟩], []⟩]⟩] "11122233344").2.2
      = ["p1", "p2", "p3"] := by
  have h := (C7_priority_selection
    [⟨some "p1", [], [⟨[⟨some 1116⟩], []⟩]⟩,
     ⟨some "p2", [], [⟨[], [⟨"ATIVO", [⟨"11122233344"⟩]⟩]⟩]⟩,
     ⟨some "p3", [], []⟩,
     ⟨some "p1", [], [⟨[⟨some 1116⟩], []⟩]⟩] "11122233344" 2 3
    (by decide) (by decide)).2.2.2
  rw [h]
  decide

/-! ## C4: the discovered-process pool -/

lemma poolKeys_addTagPool : ∀ (pool : List (String × PoolEntry)) (np tag : String),
    poolKeys (addTagPool pool np tag) = poolKeys pool := by
  intro pool np tag
  induction pool with
  | nil => rfl
  | cons hd tl ih =>
    obtain ⟨k, e⟩ := hd
    by_cases h : k = np
    · simp [addTagPool, h, poolKeys]
    · simp [addTagPool, h, poolKeys] at ih ⊢
      exact ih

lemma lookupPool_none_not_mem : ∀ (pool : List (String × PoolEntry)) (np : String),
    lookupPool pool np = none → np ∉ poolKeys pool := by
  intro pool np
  induction pool with
  | nil => intro _; simp [poolKeys]
  | cons hd tl ih =>
    obtain ⟨k, e⟩ := hd
    intro h
    by_cases hk : k = np
    · simp [lookupPool, hk] at h
    · simp only [lookupPool, if_neg hk] at h
      simp only [poolKeys, List.map_cons, List.mem_cons]
      rintro (hc | hc)
      · exact hk hc.symm
      · exact ih h hc

lemma poolKeys_poolAdd (pool : List (String × PoolEntry)) (it : Item) (tag : String) :
    poolKeys (poolAdd pool it tag) = poolKeys pool ∨
    ∃ np, numeroTruthy it = some np ∧ lookupPool pool np = none ∧
      poolKeys (poolAdd pool it tag) = poolKeys pool ++ [np] := by
  cases hnp : numeroTruthy it with
  | none =>
    left
    simp [poolAdd, hnp]
  | some np =>
    cases hl : lookupPool pool np with
    | some e =>
      left
      simp only [poolAdd, hnp, hl]
      exact poolKeys_addTagPool pool np tag
    | none =>
      refine Or.inr ⟨np, rfl, hl, ?_⟩
      simp only [poolAdd, hnp, hl]
      simp [poolKeys]

lemma nodup_poolAdd (pool : List (String × PoolEntry)) (it : Item) (tag : String)
    (h : (poolKeys pool).Nodup) : (poolKeys (poolAdd pool it tag)).Nodup := by
  rcases poolKeys_poolAdd pool it tag with heq | ⟨np, _, hl, heq⟩
  · rw [heq]; exact h
  · rw [heq]
    rw [List.nodup_append]
    exact ⟨h, List.nodup_singleton np, by
      intro a ha hb
      simp only [List.mem_singleton] at hb
      subst hb
      exact lookupPool_none_not_mem pool a hl ha⟩

lemma nodup_foldl_poolAdd : ∀ (adds : List (Item × String)) (pool : List (String × PoolEntry)),
    (poolKeys pool).Nodup →
    (poolKeys (adds.foldl (fun p a => poolAdd p a.1 a.2) pool)).Nodup := by
  intro adds
  induction adds with
  | nil => intro pool h; exact h
  | cons a rest ih =>
    intro pool h
    exact ih (poolAdd pool a.1 a.2) (nodup_poolAdd pool a.1 a.2 h)

lemma lookupPool_addTagPool_self : ∀ (pool : List (String × PoolEntry)) (np tag : String) (e : PoolEntry),
    lookupPool pool np = some e →
    lookupPool (addTagPool pool np tag) np
      = some { e with origens := if tag ∈ e.origens then e.origens else e.origens ++ [tag] } := by
  intro pool np tag e
  induction pool with
  | nil => intro h; simp [lookupPool] at h
  | cons hd tl ih =>
    obtain ⟨k, e'⟩ := hd
    intro h
    by_cases hk : k = np
    · simp only [lookupPool, if_pos hk] at h
      cases h
      simp [addTagPool, hk, lookupPool]
    · simp only [lookupPool, if_neg hk] at h
      simp only [addTagPool, if_neg hk, lookupPool]
      exact ih h

lemma lookupPool_addTagPool_other : ∀ (pool : List (String × PoolEntry)) (np np2 tag : String),
    np ≠ np2 →
    lookupPool (addTagPool pool np2 tag) np = lookupPool pool np := by
  intro pool np np2 tag hne
  induction pool with
  | nil => rfl
  | cons hd tl ih =>
    obtain ⟨k, e⟩ := hd
    by_cases hk : k = np2
    · subst hk
      simp only [addTagPool, if_pos rfl, lookupPool]
      rw [if_neg (fun hc => hne hc.symm), if_neg (fun hc => hne hc.symm)]
    · simp only [addTagPool, if_neg hk, lookupPool]
      by_cases hk2 : k = np
      · rw [if_pos hk2, if_pos hk2]
      · rw [if_neg hk2, if_neg hk2]
        exact ih

lemma lookupPool_append_of_some : ∀ (pool rest : List (String × PoolEntry)) (np : String) (e : PoolEntry),
    lookupPool pool np = some e → lookupPool (pool ++ rest) np = some e := by
  intro pool rest np e
  induction pool with
  | nil => intro h; simp [lookupPool] at h
  | cons hd tl ih =>
    obtain ⟨k, e'⟩ := hd
    intro h
    by_cases hk : k = np
    · simp only [lookupPool, if_pos hk] at h ⊢
      exact h
    · simp only [lookupPool, if_neg hk] at h ⊢
      exact ih h

/-- C4 counterexample: two discoveries of the same process number with
different raw items.  The pool entry is merged (origin tags unioned) but
the stored raw item is the FIRST seen one, not the most recently seen one,
refuting that part of the claim. -/
theorem C4_counterexample :
    lookupPool
        (poolAdd (poolAdd [] ⟨some "1", [], []⟩ "por_documento") ⟨some "1", [7], []⟩ "por_nome")
        "1"
      = some ⟨⟨some "1", [], []⟩, ["por_documento", "por_nome"]⟩ ∧
    (⟨some "1", [], []⟩ : Item) ≠ ⟨some "1", [7], []⟩ := by
  constructor
  · rfl
  · decide

/-- C4 (amended): the pool holds exactly one entry per process number; a
repeated discovery never removes or replaces the entry — its origin-tag set
is unioned with the new strategy tag — and the stored raw item is the FIRST
seen one (later items are discarded by `setdefault`). -/
theorem C4_pool_invariants :
    (∀ adds : List (Item × String), (poolKeys (mkPool adds)).Nodup) ∧
    (∀ (pool : List (String × PoolEntry)) (it : Item) (tag np : String),
      np ∈ poolKeys pool → np ∈ poolKeys (poolAdd pool it tag)) ∧
    (∀ (pool : List (String × PoolEntry)) (it : Item) (tag np : String) (e : PoolEntry),
      lookupPool pool np = some e →
      (numeroTruthy it = some np →
        lookupPool (poolAdd pool it tag) np
          = some { e with origens := if tag ∈ e.origens then e.origens else e.origens ++ [tag] }) ∧
      (numeroTruthy it ≠ some np →
        lookupPool (poolAdd pool it tag) np = some e)) := by
  refine ⟨fun adds => nodup_foldl_poolAdd adds [] (by simp [poolKeys]), ?_, ?_⟩
  · intro pool it tag np hmem
    rcases poolKeys_poolAdd pool it tag with heq | ⟨np2, _, _, heq⟩
    · rw [heq]; exact hmem
    · rw [heq]; exact List.mem_append_left _ hmem
  · intro pool it tag np e hl
    constructor
    · intro hnp
      simp only [poolAdd, hnp, hl]
      exact lookupPool_addTagPool_self pool np tag e hl
    · intro hnp
      cases hnt : numeroTruthy it with
      | none =>
        simp only [poolAdd, hnt]
        exact hl
      | some np2 =>
        have hne : np ≠ np2 := fun hc => hnp (by rw [hnt, hc])
        cases hl2 : lookupPool pool np2 with
        | some e2 =>
          simp only [poolAdd, hnt, hl2]
          rw [lookupPool_addTagPool_other pool np np2 tag hne]
          exact hl
        | none =>
          simp only [poolAdd, hnt, hl2]
          exact lookupPool_append_of_some pool _ np e hl

/-- Witness for C4 (amended) at a concrete pool with a repeated number. -/
theorem C4_witness :
    (poolKeys (mkPool [(⟨some "1", [], []⟩, "a"), (⟨some "2", [], []⟩, "b"),
      (⟨some "1", [5], []⟩, "c")])).Nodup ∧
    ("1" ∈ poolKeys (poolAdd [("1", ⟨⟨some "1", [], []⟩, ["a"]⟩)] ⟨some "2", [], []⟩ "b")) ∧
    lookupPool (poolAdd [("1", ⟨⟨some "1", [], []⟩, ["a"]⟩)] ⟨some "1", [5], []⟩ "c") "1"
      = some ⟨⟨some "1", [], []⟩, ["a", "c"]⟩ := by
  refine ⟨C4_pool_invariants.1 _, ?_, ?_⟩
  · exact C4_pool_invariants.2.1 [("1", ⟨⟨some "1", [], []⟩, ["a"]⟩)] ⟨some "2", [], []⟩ "b" "1"
      (by decide)
  · have h := (C4_pool_invariants.2.2 [("1", ⟨⟨some "1", [], []⟩, ["a"]⟩)] ⟨some "1", [5], []⟩
      "c" "1" ⟨⟨some "1", [], []⟩, ["a"]⟩ (by decide)).1 (by decide)
    rw [h]
    decide

/-! ## C1: worker handling of detail-fetch failures -/

/-- C1 counterexample: a worker whose fetch returns status 403 (neither 404
nor 200) marks the process in the not-found (404) cache — it is NOT left
unmarked for a future retry as the claim states. -/
theorem C1_counterexample :
    (workerStep ⟨[], []⟩ ⟨0, 0, 0⟩ "0001" none (.response 403 ⟨[("k", "v")]⟩)).1.processos404
        = ["0001"] ∧
    (workerStep ⟨[], []⟩ ⟨0, 0, 0⟩ "0001" none (.response 403 ⟨[("k", "v")]⟩)).2.detalhes404 = 1 ∧
    (403 : Nat) ≠ 404 ∧ (403 : Nat) ≠ 200 := by
  refine ⟨rfl, rfl, by decide, by decide⟩

/-- C1 (amended): `buscar_detalhe_processo` collapses a 404, any other
non-200 status, and any exception to the same empty dict, so the worker
marks the process permanently not-found on EVERY failure (and on an empty
200 body), not only on 404; it marks it processed-ok exactly when a
non-empty detail document is obtained.  No failure leaves the process
unmarked. -/
theorem C1_worker_marking (cache : CacheState) (stats : WorkerStats) (np : String)
    (status : Nat) (data : Detail) :
    (status ≠ 200 →
      workerStep cache stats np none (.response status data)
        = (addProcesso404 cache np, { stats with detalhes404 := stats.detalhes404 + 1 })) ∧
    (workerStep cache stats np none .raisedError
      = (addProcesso404 cache np, { stats with detalhes404 := stats.detalhes404 + 1 })) ∧
    (status = 200 → data.isEmptyDict = true →
      workerStep cache stats np none (.response status data)
        = (addProcesso404 cache np, { stats with detalhes404 := stats.detalhes404 + 1 })) ∧
    (status = 200 → data.isEmptyDict = false →
      workerStep cache stats np none (.response status data)
        = (addProcesso cache np "ok",
           { stats with detalhesBaixados := stats.detalhesBaixados + 1 })) := by
  have hfail : ∀ h : status ≠ 200,
      (buscarDetalheProcesso none (.response status data)).1 = ⟨[]⟩ := by
    intro h
    by_cases h404 : status = 404
    · simp [buscarDetalheProcesso, h404]
    · simp [buscarDetalheProcesso, h404, h]
  refine ⟨fun h => ?_, ?_, fun h he => ?_, fun h he => ?_⟩
  · simp only [workerStep, hfail h]
    simp [Detail.isEmptyDict]
  · simp [workerStep, buscarDetalheProcesso, Detail.isEmptyDict]
  · subst h
    simp only [workerStep, buscarDetalheProcesso]
    norm_num
    simp [he]
  · subst h
    simp only [workerStep, buscarDetalheProcesso]
    norm_num
    simp [he]

/-- Witness for C1 (amended) at concrete inputs: statuses 500 and 200. -/
theorem C1_amended_witness :
    workerStep ⟨[], []⟩ ⟨0, 0, 0⟩ "0002" none (.response 500 ⟨[]⟩)
        = (addProcesso404 ⟨[], []⟩ "0002", ⟨0, 1, 0⟩) ∧
    workerStep ⟨[], []⟩ ⟨0, 0, 0⟩ "0002" none (.response 200 ⟨[("a", "b")]⟩)
        = (addProcesso ⟨[], []⟩ "0002" "ok", ⟨1, 0, 0⟩) := by
  constructor
  · exact (C1_worker_marking ⟨[], []⟩ ⟨0, 0, 0⟩ "0002" 500 ⟨[]⟩).1 (by decide)
  · exact (C1_worker_marking ⟨[], []⟩ ⟨0, 0, 0⟩ "0002" 200 ⟨[("a", "b")]⟩).2.2.2 rfl (by decide)

/-! ## C2: retry counter on a 429 round -/

/-- C2 counterexample: first attempt returns 429 (advised wait 5s), second
attempt succeeds with 200.  The observed retry counter is 0 — not 1 as the
claim states — while the rate-limit-hit counter is 1: the 429 branch of
`PDPJClient.get` increments only `errors_429`, never `retries`. -/
theorem C2_counterexample :
    (pdpjGet 1 (fun _ => 0) (fun n => if n = 0 then .response 429 5 else .response 200 30)
        5 {}).1 = some 200 ∧
    (pdpjGet 1 (fun _ => 0) (fun n => if n = 0 then .response 429 5 else .response 200 30)
        5 {}).2.retries = 0 ∧
    (pdpjGet 1 (fun _ => 0) (fun n => if n = 0 then .response 429 5 else .response 200 30)
        5 {}).2.errors429 = 1 :=
  ⟨rfl, rfl, rfl⟩

/-- C2 (amended): every 5xx-list (500/502/503/504) backoff and every
connection-failure backoff increments the retry counter; a 429 round
increments the rate-limit counter and NOT the retry counter (its retry
field is carried through unchanged).  In the scenario (first attempt
rate-limited, second attempt terminal) the call returns that response,
with retry count 0 and rate-limit-hit count 1. -/
theorem C2_rate_limit_counters (base : ℚ) (jitter : Nat → ℚ)
    (oracle : Nat → AttemptOutcome) :
    (∀ (fuel attempt : Nat) (st : GetStats), oracle attempt = .connFailure →
      getAttempts base jitter oracle (fuel + 1) attempt st
        = getAttempts base jitter oracle fuel (attempt + 1)
            { st with requests := st.requests + 1, retries := st.retries + 1,
                      errorsOther := st.errorsOther + 1,
                      sleeps := st.sleeps ++ [base * 2 ^ attempt + jitter attempt] }) ∧
    (∀ (fuel attempt : Nat) (st : GetStats) (s ra : Nat),
      oracle attempt = .response s ra → (s = 500 ∨ s = 502 ∨ s = 503 ∨ s = 504) →
      getAttempts base jitter oracle (fuel + 1) attempt st
        = getAttempts base jitter oracle fuel (attempt + 1)
            { st with requests := st.requests + 1, retries := st.retries + 1,
                      sleeps := st.sleeps ++ [base * 2 ^ attempt + jitter attempt] }) ∧
    (∀ (fuel attempt : Nat) (st : GetStats) (ra : Nat),
      oracle attempt = .response 429 ra →
      getAttempts base jitter oracle (fuel + 1) attempt st
        = getAttempts base jitter oracle fuel (attempt + 1)
            { st with requests := st.requests + 1, errors429 := st.errors429 + 1,
                      sleeps := st.sleeps
                        ++ [max (ra : ℚ) ((10 * (attempt + 1) : Nat) : ℚ)] }) ∧
    (∀ (m : Nat) (st : GetStats) (s ra ra2 : Nat),
      oracle 0 = .response 429 ra → oracle 1 = .response s ra2 →
      s ≠ 429 → ¬(s = 500 ∨ s = 502 ∨ s = 503 ∨ s = 504) →
      (pdpjGet base jitter oracle (m + 2) st).1 = some s ∧
      (pdpjGet base jitter oracle (m + 2) st).2.retries = st.retries ∧
      (pdpjGet base jitter oracle (m + 2) st).2.errors429 = st.errors429 + 1 ∧
      (pdpjGet base jitter oracle (m + 2) st).2.requests = st.requests + 2) := by
  refine ⟨?_, ?_, ?_, ?_⟩
  · intro fuel attempt st h
    simp only [getAttempts, h]
  · intro fuel attempt st s ra h h5
    have h429 : s ≠ 429 := by omega
    simp only [getAttempts, h, if_neg h429, if_pos h5]
  · intro fuel attempt st ra h
    simp only [getAttempts, h]
    norm_num
  · intro m st s ra ra2 h0 h1 hs hs2
    refine ⟨?_, ?_, ?_, ?_⟩ <;>
      simp [pdpjGet, getAttempts, h0, h1, hs, hs2]

/-- Witness for C2 (amended): the connection-failure and 429 step laws at
attempt 0, and the scenario at a concrete oracle with success status
200. -/
theorem C2_amended_witness :
    getAttempts 1 (fun _ => 0) (fun _ => .connFailure) 3 0 ⟨0, 0, 0, 0, []⟩
        = getAttempts 1 (fun _ => 0) (fun _ => .connFailure) 2 1
            ⟨0 + 1, 0 + 1, 0, 0 + 1, [] ++ [1 * 2 ^ 0 + 0]⟩ ∧
    getAttempts 1 (fun _ => 0) (fun _ => .response 429 5) 3 0 ⟨0, 0, 0, 0, []⟩
        = getAttempts 1 (fun _ => 0) (fun _ => .response 429 5) 2 1
            ⟨0 + 1, 0, 0 + 1, 0, [] ++ [max ((5 : Nat) : ℚ) ((10 * (0 + 1) : Nat) : ℚ)]⟩ ∧
    (pdpjGet 1 (fun _ => 0) (fun n => if n = 0 then .response 429 5 else .response 200 30)
        5 {}).2.retries = ({} : GetStats).retries ∧
    (pdpjGet 1 (fun _ => 0) (fun n => if n = 0 then .response 429 5 else .response 200 30)
        5 {}).2.errors429 = ({} : GetStats).errors429 + 1 := by
  have hconn := (C2_rate_limit_counters 1 (fun _ => 0) (fun _ => .connFailure)).1
    2 0 ⟨0, 0, 0, 0, []⟩ rfl
  have h429 := (C2_rate_limit_counters 1 (fun _ => 0) (fun _ => .response 429 5)).2.2.1
    2 0 ⟨0, 0, 0, 0, []⟩ 5 rfl
  have hscen := (C2_rate_limit_counters 1 (fun _ => 0)
    (fun n => if n = 0 then .response 429 5 else .response 200 30)).2.2.2 3 {} 200 5 30
    rfl rfl (by decide) (by decide)
  exact ⟨hconn, h429, hscen.2.1, hscen.2.2.1⟩

/-! ## C5: which statuses are retried -/

/-- C5 counterexample: a 501 response — a 5xx status — is returned
immediately on the first attempt, with no sleep and no retry, refuting
"any 5xx status causes a sleep and a retry": the code retries only 500,
502, 503 and 504. -/
theorem C5_counterexample :
    (pdpjGet 1 (fun _ => 0) (fun _ => .response 501 30) 5 {}).1 = some 501 ∧
    (pdpjGet 1 (fun _ => 0) (fun _ => .response 501 30) 5 {}).2.requests = 1 ∧
    (pdpjGet 1 (fun _ => 0) (fun _ => .response 501 30) 5 {}).2.retries = 0 ∧
    (pdpjGet 1 (fun _ => 0) (fun _ => .response 501 30) 5 {}).2.sleeps = [] :=
  ⟨rfl, rfl, rfl, rfl⟩

/-- C5 (amended): a response with status 500, 502, 503 or 504 causes a
recorded sleep of `base * 2 ^ attempt + jitter` and a retry (with the retry
counter incremented); every response with any other status except 429 —
including success and the remaining 5xx statuses such as 501 — is returned
immediately, with no extra sleep and no retry. -/
theorem C5_transient_retry (base : ℚ) (jitter : Nat → ℚ)
    (oracle : Nat → AttemptOutcome) (fuel attempt : Nat) (st : GetStats)
    (s ra : Nat) (h : oracle attempt = .response s ra) :
    ((s = 500 ∨ s = 502 ∨ s = 503 ∨ s = 504) →
      getAttempts base jitter oracle (fuel + 1) attempt st
        = getAttempts base jitter oracle fuel (attempt + 1)
            { st with requests := st.requests + 1, retries := st.retries + 1,
                      sleeps := st.sleeps ++ [base * 2 ^ attempt + jitter attempt] }) ∧
    (s ≠ 429 → ¬(s = 500 ∨ s = 502 ∨ s = 503 ∨ s = 504) →
      getAttempts base jitter oracle (fuel + 1) attempt st
        = (some s, { st with requests := st.requests + 1 })) := by
  constructor
  · intro h5
    have h429 : s ≠ 429 := by omega
    simp only [getAttempts, h, if_neg h429, if_pos h5]
  · intro h429 h5
    simp only [getAttempts, h, if_neg h429, if_neg h5]

/-- Witness for C5 (amended) at statuses 503 (retried) and 501 (returned
immediately). -/
theorem C5_amended_witness :
    getAttempts 1 (fun _ => 0) (fun _ => .response 503 30) 3 0 ⟨0, 0, 0, 0, []⟩
        = getAttempts 1 (fun _ => 0) (fun _ => .response 503 30) 2 1
            ⟨0 + 1, 0 + 1, 0, 0, [] ++ [1 * 2 ^ 0 + 0]⟩ ∧
    getAttempts 1 (fun _ => 0) (fun _ => .response 501 30) 3 0 ⟨0, 0, 0, 0, []⟩
        = (some 501, ⟨0 + 1, 0, 0, 0, []⟩) := by
  constructor
  · exact (C5_transient_retry 1 (fun _ => 0) (fun _ => .response 503 30) 2 0
      ⟨0, 0, 0, 0, []⟩ 503 30 rfl).1 (by omega)
  · exact (C5_transient_retry 1 (fun _ => 0) (fun _ => .response 501 30) 2 0
      ⟨0, 0, 0, 0, []⟩ 501 30 rfl).2 (by omega) (by omega)

/-! ## C3: what gets persisted to checkpoint files -/

lemma getPageData_hit (saveDir : Bool) (net : Nat → PageResp) (st : PagerSt)
    (pagina : Nat) (data : Page) (h : st.disk pagina = some data) :
    getPageData saveDir net st pagina = (st, some data) := by
  simp [getPageData, h]

lemma getPageData_miss200 (net : Nat → PageResp) (st : PagerSt) (pagina : Nat)
    (h : st.disk pagina = none) (h2 : (net st.reqCount).status = 200) :
    getPageData true net st pagina
      = ({ st with reqCount := st.reqCount + 1,
                   disk := fun p => if p = pagina then some (net st.reqCount).data
                           else st.disk p,
                   writes := st.writes ++ [(pagina, (net st.reqCount).data)] },
         some (net st.reqCount).data) := by
  simp [getPageData, h, h2]

lemma getPageData_missErr (saveDir : Bool) (net : Nat → PageResp) (st : PagerSt)
    (pagina : Nat) (h : st.disk pagina = none) (h2 : (net st.reqCount).status ≠ 200) :
    getPageData saveDir net st pagina = ({ st with reqCount := st.reqCount + 1 }, none) := by
  simp [getPageData, h, h2]

/-- `getPageData` either leaves the write log unchanged or appends exactly
one page that was freshly fetched with status 200. -/
lemma getPageData_writes_char (saveDir : Bool) (net : Nat → PageResp) (st : PagerSt)
    (pagina : Nat) :
    ((getPageData saveDir net st pagina).1.writes = st.writes) ∨
    ((net st.reqCount).status = 200 ∧
      (getPageData saveDir net st pagina).1.writes
        = st.writes ++ [(pagina, (net st.reqCount).data)]) := by
  cases h : st.disk pagina with
  | some d =>
    left
    rw [getPageData_hit saveDir net st pagina d h]
  | none =>
    by_cases h2 : (net st.reqCount).status = 200
    · cases saveDir with
      | true =>
        right
        exact ⟨h2, by rw [getPageData_miss200 net st pagina h h2]⟩
      | false =>
        left
        simp [getPageData, h, h2]
    · left
      rw [getPageData_missErr saveDir net st pagina h h2]

/-- Every checkpoint write performed by a run has a 200 response as its
provenance: writes either predate the run or carry the body of some 200
network response. -/
lemma pagerLoop_writes_provenance (saveDir : Bool) (net : Nat → PageResp) (maxProc : Nat) :
    ∀ (fuel pagina : Nat) (acc : List Item) (ta : Option Nat) (gig : Bool) (st : PagerSt)
      (w : Nat × Page),
      w ∈ (pagerLoop saveDir net maxProc fuel pagina acc ta gig st).st.writes →
      w ∈ st.writes ∨ ∃ k, (net k).status = 200 ∧ (net k).data = w.2 := by
  intro fuel
  induction fuel with
  | zero =>
    intro pagina acc ta gig st w hw
    exact Or.inl hw
  | succ n ih =>
    intro pagina acc ta gig st w hw
    rcases hgp : getPageData saveDir net st pagina with ⟨st1, pd⟩
    have hchar := getPageData_writes_char saveDir net st pagina
    rw [hgp] at hchar
    simp only at hchar
    have hcomb : w ∈ st1.writes →
        w ∈ st.writes ∨ ∃ k, (net k).status = 200 ∧ (net k).data = w.2 := by
      intro hmem
      rcases hchar with heq | ⟨hstat, heq⟩
      · simp only [heq] at hmem
        exact Or.inl hmem
      · simp only [heq] at hmem
        rcases List.mem_append.mp hmem with h1 | h2
        · exact Or.inl h1
        · simp only [List.mem_singleton] at h2
          subst h2
          exact Or.inr ⟨st.reqCount, hstat, rfl⟩
    rw [pagerLoop, hgp] at hw
    cases pd with
    | none =>
      simp only at hw
      exact hcomb hw
    | some data =>
      simp only at hw
      cases hps : pageStep maxProc acc data with
      | stopEmpty =>
        rw [hps] at hw
        simp only at hw
        exact hcomb hw
      | stopFull acc1 =>
        rw [hps] at hw
        simp only at hw
        exact hcomb hw
      | next acc1 =>
        rw [hps] at hw
        simp only at hw
        rcases ih (pagina + 1) acc1 _ _ { st1 with pagesOk := st1.pagesOk + 1 } w hw with
          hin | hex
        · exact hcomb hin
        · exact Or.inr hex

/-- C3 counterexample: a fresh 200 response whose content is EMPTY is
persisted to the page-1 checkpoint file, refuting "an empty page is never
written". -/
theorem C3_counterexample :
    (buscarPorDocumento true (fun _ => ⟨200, ⟨0, [], []⟩⟩) 3 10
        (initPagerSt emptyDisk)).st.writes = [(1, ⟨0, [], []⟩)] ∧
    (⟨0, [], []⟩ : Page).content = [] :=
  ⟨rfl, rfl⟩

/-- C3 (amended): a freshly fetched page is persisted to its checkpoint
file exactly when the response has status 200 — including when its content
is empty; an error (non-200) response is never written, a checkpoint hit
writes nothing, and every write of a full run carries the body of some 200
response. -/
theorem C3_checkpoint_persistence :
    (∀ (net : Nat → PageResp) (st : PagerSt) (pagina : Nat),
      st.disk pagina = none → (net st.reqCount).status = 200 →
      (getPageData true net st pagina).1.writes
        = st.writes ++ [(pagina, (net st.reqCount).data)]) ∧
    (∀ (net : Nat → PageResp) (st : PagerSt) (pagina : Nat),
      st.disk pagina = none → (net st.reqCount).status ≠ 200 →
      (getPageData true net st pagina).1.writes = st.writes) ∧
    (∀ (net : Nat → PageResp) (st : PagerSt) (pagina : Nat) (data : Page),
      st.disk pagina = some data →
      (getPageData true net st pagina).1.writes = st.writes) ∧
    (∀ (net : Nat → PageResp) (maxPaginas maxProc : Nat) (w : Nat × Page),
      w ∈ (buscarPorDocumento true net maxPaginas maxProc (initPagerSt emptyDisk)).st.writes →
      ∃ k, (net k).status = 200 ∧ (net k).data = w.2) := by
  refine ⟨?_, ?_, ?_, ?_⟩
  · intro net st pagina h h2
    rw [getPageData_miss200 net st pagina h h2]
  · intro net st pagina h h2
    rw [getPageData_missErr true net st pagina h h2]
  · intro net st pagina data h
    rw [getPageData_hit true net st pagina data h]
  · intro net maxPaginas maxProc w hw
    rcases pagerLoop_writes_provenance true net maxProc maxPaginas 1 [] none false
        (initPagerSt emptyDisk) w hw with hin | hex
    · simp [initPagerSt] at hin
    · exact hex

/-- Witness for C3 (amended) at a concrete one-page network. -/
theorem C3_amended_witness :
    (getPageData true (fun _ => ⟨200, ⟨1, [⟨some "p", [], []⟩], []⟩⟩)
        (initPagerSt emptyDisk) 1).1.writes = [] ++ [(1, ⟨1, [⟨some "p", [], []⟩], []⟩)] ∧
    (getPageData true (fun _ => ⟨500, ⟨0, [], []⟩⟩) (initPagerSt emptyDisk) 1).1.writes = [] := by
  constructor
  · exact C3_checkpoint_persistence.1 (fun _ => ⟨200, ⟨1, [⟨some "p", [], []⟩], []⟩⟩)
      (initPagerSt emptyDisk) 1 rfl rfl
  · exact C3_checkpoint_persistence.2.1 (fun _ => ⟨500, ⟨0, [], []⟩⟩)
      (initPagerSt emptyDisk) 1 rfl (by decide)

/-! ## C6: idempotent checkpoint resume -/

/-- `getPageData` never erases a checkpoint: a page already on disk is
still there afterwards. -/
lemma getPageData_disk_pres (saveDir : Bool) (net : Nat → PageResp) (st : PagerSt)
    (pagina p : Nat) (d : Page) (h : st.disk p = some d) :
    (getPageData saveDir net st pagina).1.disk p = some d := by
  cases hd : st.disk pagina with
  | some data =>
    rw [getPageData_hit saveDir net st pagina data hd]
    exact h
  | none =>
    by_cases h2 : (net st.reqCount).status = 200
    · cases saveDir with
      | true =>
        rw [getPageData_miss200 net st pagina hd h2]
        simp only
        by_cases hp : p = pagina
        · subst hp
          rw [h] at hd
          cases hd
        · rw [if_neg hp]
          exact h
      | false =>
        have hoe : getPageData false net st pagina
            = ({ st with reqCount := st.reqCount + 1 }, some (net st.reqCount).data) := by
          simp [getPageData, hd, h2]
        rw [hoe]
        exact h
    · rw [getPageData_missErr saveDir net st pagina hd h2]
      exact h

/-- The pager never erases a checkpoint: the final checkpoint directory
extends the starting one. -/
lemma pagerLoop_disk_mono (saveDir : Bool) (net : Nat → PageResp) (maxProc : Nat) :
    ∀ (fuel pagina : Nat) (acc : List Item) (ta : Option Nat) (gig : Bool) (st : PagerSt)
      (p : Nat) (d : Page), st.disk p = some d →
      (pagerLoop saveDir net maxProc fuel pagina acc ta gig st).st.disk p = some d := by
  intro fuel
  induction fuel with
  | zero =>
    intro pagina acc ta gig st p d h
    exact h
  | succ n ih =>
    intro pagina acc ta gig st p d h
    rcases hgp : getPageData saveDir net st pagina with ⟨st1, pd⟩
    have hpres := getPageData_disk_pres saveDir net st pagina p d h
    rw [hgp] at hpres
    simp only at hpres
    rw [pagerLoop, hgp]
    cases pd with
    | none =>
      simp only
      exact hpres
    | some data =>
      simp only
      cases hps : pageStep maxProc acc data with
      | stopEmpty =>
        simp only
        exact hpres
      | stopFull acc1 =>
        simp only
        exact hpres
      | next acc1 =>
        simp only
        exact ih (pagina + 1) acc1 _ _ { st1 with pagesOk := st1.pagesOk + 1 } p d hpres

/-- Replay: a second run over the final checkpoint directory of a fully
successful first run visits the same pages, returns the same values, and
issues no request and no write. -/
lemma pagerLoop_replay (net1 net2 : Nat → PageResp) (maxProc : Nat)
    (h200 : ∀ k, (net1 k).status = 200) :
    ∀ (fuel pagina : Nat) (acc : List Item) (ta : Option Nat) (gig : Bool)
      (st1 st2 : PagerSt),
      st2.disk = (pagerLoop true net1 maxProc fuel pagina acc ta gig st1).st.disk →
      (pagerLoop true net2 maxProc fuel pagina acc ta gig st2).processos
          = (pagerLoop true net1 maxProc fuel pagina acc ta gig st1).processos ∧
      (pagerLoop true net2 maxProc fuel pagina acc ta gig st2).totalApi
          = (pagerLoop true net1 maxProc fuel pagina acc ta gig st1).totalApi ∧
      (pagerLoop true net2 maxProc fuel pagina acc ta gig st2).gigante
          = (pagerLoop true net1 maxProc fuel pagina acc ta gig st1).gigante ∧
      (pagerLoop true net2 maxProc fuel pagina acc ta gig st2).paginas
          = (pagerLoop true net1 maxProc fuel pagina acc ta gig st1).paginas ∧
      (pagerLoop true net2 maxProc fuel pagina acc ta gig st2).st.reqCount = st2.reqCount ∧
      (pagerLoop true net2 maxProc fuel pagina acc ta gig st2).st.writes = st2.writes ∧
      (pagerLoop true net2 maxProc fuel pagina acc ta gig st2).st.disk = st2.disk := by
  intro fuel
  induction fuel with
  | zero =>
    intro pagina acc ta gig st1 st2 hdisk
    simp [pagerLoop]
  | succ n ih =>
    intro pagina acc ta gig st1 st2 hdisk
    cases hd1 : st1.disk pagina with
    | some data =>
      have hg1 : getPageData true net1 st1 pagina = (st1, some data) :=
        getPageData_hit true net1 st1 pagina data hd1
      have hd2 : st2.disk pagina = some data := by
        rw [hdisk]
        exact pagerLoop_disk_mono true net1 maxProc (n + 1) pagina acc ta gig st1 pagina
          data hd1
      have hg2 : getPageData true net2 st2 pagina = (st2, some data) :=
        getPageData_hit true net2 st2 pagina data hd2
      rw [pagerLoop, hg1] at hdisk
      simp only at hdisk
      cases hps : pageStep maxProc acc data with
      | stopEmpty =>
        simp [pagerLoop, hg1, hg2, hps]
      | stopFull acc1 =>
        simp [pagerLoop, hg1, hg2, hps]
      | next acc1 =>
        rw [hps] at hdisk
        simp only at hdisk
        simp only [pagerLoop, hg1, hg2, hps]
        exact ih (pagina + 1) acc1 _ _ { st1 with pagesOk := st1.pagesOk + 1 }
          { st2 with pagesOk := st2.pagesOk + 1 } hdisk
    | none =>
      have hst : (net1 st1.reqCount).status = 200 := h200 _
      have hg1 := getPageData_miss200 net1 st1 pagina hd1 hst
      have hself : (fun p => if p = pagina then some (net1 st1.reqCount).data
          else st1.disk p) pagina = some (net1 st1.reqCount).data := by
        simp
      rw [pagerLoop, hg1] at hdisk
      simp only at hdisk
      cases hps : pageStep maxProc acc (net1 st1.reqCount).data with
      | stopEmpty =>
        rw [hps] at hdisk
        simp only at hdisk
        have hd2 : st2.disk pagina = some (net1 st1.reqCount).data := by
          rw [hdisk]
          exact hself
        have hg2 : getPageData true net2 st2 pagina = (st2, some (net1 st1.reqCount).data) :=
          getPageData_hit true net2 st2 pagina _ hd2
        simp [pagerLoop, hg1, hg2, hps]
      | stopFull acc1 =>
        rw [hps] at hdisk
        simp only at hdisk
        have hd2 : st2.disk pagina = some (net1 st1.reqCount).data := by
          rw [hdisk]
          exact hself
        have hg2 : getPageData true net2 st2 pagina = (st2, some (net1 st1.reqCount).data) :=
          getPageData_hit true net2 st2 pagina _ hd2
        simp [pagerLoop, hg1, hg2, hps]
      | next acc1 =>
        rw [hps] at hdisk
        simp only at hdisk
        have hd2 : st2.disk pagina = some (net1 st1.reqCount).data := by
          rw [hdisk]
          exact pagerLoop_disk_mono true net1 maxProc n (pagina + 1) acc1 _ _ _ pagina _
            hself
        have hg2 : getPageData true net2 st2 pagina = (st2, some (net1 st1.reqCount).data) :=
          getPageData_hit true net2 st2 pagina _ hd2
        simp only [pagerLoop, hg1, hg2, hps]
        exact ih (pagina + 1) acc1 _ _ _ { st2 with pagesOk := st2.pagesOk + 1 } hdisk

/-- C6: re-running a checkpointed search over the checkpoint directory
produced by an original run whose responses were all 200 reconstructs
identical in-memory page content (and total/gigante/page count) and issues
zero network requests and zero writes. -/
theorem C6_checkpoint_resume (net1 net2 : Nat → PageResp) (maxPaginas maxProc : Nat)
    (h200 : ∀ k, (net1 k).status = 200) :
    (buscarPorDocumento true net2 maxPaginas maxProc
        (initPagerSt (buscarPorDocumento true net1 maxPaginas maxProc
          (initPagerSt emptyDisk)).st.disk)).processos
      = (buscarPorDocumento true net1 maxPaginas maxProc (initPagerSt emptyDisk)).processos ∧
    (buscarPorDocumento true net2 maxPaginas maxProc
        (initPagerSt (buscarPorDocumento true net1 maxPaginas maxProc
          (initPagerSt emptyDisk)).st.disk)).totalApi
      = (buscarPorDocumento true net1 maxPaginas maxProc (initPagerSt emptyDisk)).totalApi ∧
    (buscarPorDocumento true net2 maxPaginas maxProc
        (initPagerSt (buscarPorDocumento true net1 maxPaginas maxProc
          (initPagerSt emptyDisk)).st.disk)).paginas
      = (buscarPorDocumento true net1 maxPaginas maxProc (initPagerSt emptyDisk)).paginas ∧
    (buscarPorDocumento true net2 maxPaginas maxProc
        (initPagerSt (buscarPorDocumento true net1 maxPaginas maxProc
          (initPagerSt emptyDisk)).st.disk)).st.reqCount = 0 ∧
    (buscarPorDocumento true net2 maxPaginas maxProc
        (initPagerSt (buscarPorDocumento true net1 maxPaginas maxProc
          (initPagerSt emptyDisk)).st.disk)).st.writes = [] := by
  have h := pagerLoop_replay net1 net2 maxProc h200 maxPaginas 1 [] none false
    (initPagerSt emptyDisk)
    (initPagerSt (buscarPorDocumento true net1 maxPaginas maxProc
      (initPagerSt emptyDisk)).st.disk)
    rfl
  exact ⟨h.1, h.2.1, h.2.2.2.1, h.2.2.2.2.1, h.2.2.2.2.2.1⟩

/-- Witness for C6: a network whose single useful page holds one item with
no cursor (all responses 200), replayed against a network that would answer
500 to everything. -/
theorem C6_witness :
    (buscarPorDocumento true (fun _ => ⟨500, ⟨0, [], []⟩⟩) 5 10
        (initPagerSt (buscarPorDocumento true
          (fun _ => ⟨200, ⟨1, [⟨some "p", [], []⟩], []⟩⟩) 5 10
          (initPagerSt emptyDisk)).st.disk)).processos
      = (buscarPorDocumento true (fun _ => ⟨200, ⟨1, [⟨some "p", [], []⟩], []⟩⟩) 5 10
          (initPagerSt emptyDisk)).processos ∧
    (buscarPorDocumento true (fun _ => ⟨500, ⟨0, [], []⟩⟩) 5 10
        (initPagerSt (buscarPorDocumento true
          (fun _ => ⟨200, ⟨1, [⟨some "p", [], []⟩], []⟩⟩) 5 10
          (initPagerSt emptyDisk)).st.disk)).st.reqCount = 0 := by
  have h := C6_checkpoint_resume (fun _ => ⟨200, ⟨1, [⟨some "p", [], []⟩], []⟩⟩)
    (fun _ => ⟨500, ⟨0, [], []⟩⟩) 5 10 (fun _ => rfl)
  exact ⟨h.1, h.2.2.2.1⟩

end BaixaPdpj
